import Mathlib

/-!
Verification of the schwarm multi-agent orchestration runtime.

This file gives a shallow embedding, in Lean, of the parts of the
repository that the specification talks about:

* the refactor orchestrator (`src/refactor/core/orchestrator.py`,
  `agent.py`, `llm.py`, `types.py`);
* the main orchestrator loop (`src/schwarm/core/schwarm.py`);
* the event dispatcher (`schwarm/events.py`);
* the tool registry (`src/schwarm/tools/registry.py`).

Pure functions of the source become Lean functions; the stateful turn
loops become explicit state passing over record types; Python
exceptions become `Except`; Python dicts become association lists with
insertion-order semantics.  External collaborators (the LLM adapter,
`json.loads`, the async runtime) are taken as parameters of the
embedded functions.  Wall-clock concerns (sleeps, timeouts, the cache
TTL, the asyncio lock) are outside the model.
-/

namespace SchwarmVerify

/-! ## JSON values

A model of the values produced by Python's `json.loads`, used for tool
argument payloads. -/

inductive Json where
  | str (s : String)
  | num (n : Int)
  | jsonBool (b : Bool)
  | null
  | arr (xs : List Json)
  | obj (fields : List (String × Json))

/-- A lower bound on the length of the text of a JSON string value:
the two quotes plus the content (escaping only lengthens the text). -/
def Json.strMinLen : Json → Nat
  | .str s => s.length + 2
  | _ => 0

/-- A lower bound on the length of any JSON text that parses to the
given value: braces/quotes/colons are counted, nested values are
bounded through `strMinLen`.  Any real JSON decoder satisfies
`v.minLen ≤ s.length` whenever it decodes `s` to `v`. -/
def Json.minLen : Json → Nat
  | .str s => s.length + 2
  | .obj fields => 2 + (fields.map (fun f => f.1.length + 3 + f.2.strMinLen)).sum
  | _ => 1

/-- Soundness of an external JSON decoder: a decoded value never needs
more text than the input had.  This holds of `json.loads`. -/
def DecoderSound (jsonLoads : String → Option Json) : Prop :=
  ∀ s v, jsonLoads s = some v → v.minLen ≤ s.length

/-! ## Refactor core (`src/refactor/core/`)

`types.py`: the `Message` dataclass has `content`, `role` (default
`"user"`) and `tool_calls`; it has no `tool_call_id` field. -/

/-- A tool call after `LLMProvider._extract_content`: the dict
`{"name": ..., "arguments": ...}` (llm.py line 43).  The `arguments`
payload is either a raw string or an already-decoded object. -/
inductive ArgPayload where
  | rawStr (s : String)
  | jsonVal (v : Json)

structure RToolCall where
  name : String
  arguments : ArgPayload := .jsonVal (.obj [])

/-- The `Message` dataclass of `refactor/core/types.py`. -/
structure RMessage where
  content : String
  role : String := "user"
  tool_calls : List RToolCall := []

/-- A model-emitted tool call as it appears in an OpenAI-style
response, before extraction: `call.id`, `call.function.name`,
`call.function.arguments`. -/
structure RawToolCall where
  id : String
  name : String
  arguments : String

/-- Embeds `LLMProvider._extract_content`, lines 40-43: each OpenAI-style
call is mapped to `{"name": call.function.name, "arguments":
call.function.arguments}`; the call id is not kept. -/
def extractToolCalls (raw : List RawToolCall) : List RToolCall :=
  raw.map (fun call => { name := call.name, arguments := .rawStr call.arguments })

/-- A refactor tool: a name, a description and an implementation that
either returns a value (already stringified, mirroring `str(result)`)
or raises. -/
structure RTool where
  name : String
  description : String := ""
  impl : Json → Except String String

/-- The `Agent` of `refactor/core/agent.py`: instructions are a string or a
producer from the context. -/
inductive RInstruction where
  | static (s : String)
  | producer (f : List (String × String) → String)

structure RAgent where
  name : String
  description : String := ""
  tools : List RTool := []
  instructions : RInstruction := .static "You are a helpful assistant."

/-- Embeds `Agent.get_system_message`: materialise the instructions and wrap
them in a `system`-role message. -/
def RAgent.get_system_message (a : RAgent) (context : List (String × String)) : RMessage :=
  { content := match a.instructions with
      | .static s => s
      | .producer f => f context
    role := "system" }

/-- Embeds `Agent.execute_tool`: resolve the name against the tool list; the
first match is invoked; an unknown name raises `ValueError`. -/
def RAgent.execute_tool (a : RAgent) (tool_name : String) (args : Json) : Except String String :=
  match a.tools.find? (fun t => t.name == tool_name) with
  | some t => t.impl args
  | none => .error ("Tool " ++ tool_name ++ " not found")

/-- Argument decoding in `Orchestrator._execute_tool`, lines 27-31: a
string payload is decoded with `json.loads`; on a decode failure the
raw string is wrapped under the single key `input`; a non-string
payload is passed through. -/
def decodeArguments (jsonLoads : String → Option Json) : ArgPayload → Json
  | .rawStr raw =>
      match jsonLoads raw with
      | some v => v
      | none => .obj [("input", .str raw)]
  | .jsonVal v => v

/-- The single message produced for one tool call by
`Orchestrator._execute_tool`: the stringified result on success, an
error-payload message when the tool body (or name resolution) raises.
Every produced message has role `tool`. -/
def toolCallMessage (jsonLoads : String → Option Json) (agent : RAgent)
    (tc : RToolCall) : RMessage :=
  let args := decodeArguments jsonLoads tc.arguments
  match agent.execute_tool tc.name args with
  | .ok result => { content := result, role := "tool" }
  | .error e => { content := "Error executing tool " ++ tc.name ++ ": " ++ e, role := "tool" }

/-- Embeds `Orchestrator._execute_tool`, lines 19-48: the loop over the tool
call batch, accumulating one tool message per call. -/
def executeToolR (jsonLoads : String → Option Json) (agent : RAgent) :
    List RToolCall → List RMessage
  | [] => []
  | tc :: rest => toolCallMessage jsonLoads agent tc :: executeToolR jsonLoads agent rest

/-- The abstract LLM adapter of the refactor path: from the current
conversation it produces the assistant content and the raw
(OpenAI-style) tool calls.  `LLMProvider.complete` always wraps the
extraction in a `role = "assistant"` message. -/
abbrev RModelFn := List RMessage → String × List RawToolCall

/-- The assistant message built by `LLMProvider.complete` (llm.py line
94) out of one adapter response. -/
def assistantOf (resp : String × List RawToolCall) : RMessage :=
  { content := resp.1, role := "assistant", tool_calls := extractToolCalls resp.2 }

/-- Instrumented state of `Orchestrator.run_conversation`: the working
`conversation` list, plus bookkeeping (messages produced during the
call, the input of every model call, the number of model calls). -/
structure RConvState where
  conversation : List RMessage
  produced : List RMessage := []
  modelInputs : List (List RMessage) := []

/-- The `while current_turn < max_turns` loop of
`Orchestrator.run_conversation`, lines 65-84, with fuel equal to the
remaining `max_turns - current_turn`: call the model, append the
assistant message, and either execute the tool batch and continue or
exit the loop when the assistant message has no tool calls. -/
def refactorLoop (llm : RModelFn) (jsonLoads : String → Option Json) (agent : RAgent) :
    Nat → RConvState → RConvState
  | 0, st => st
  | fuel + 1, st =>
      let result := assistantOf (llm st.conversation)
      let st' : RConvState :=
        { conversation := st.conversation ++ [result]
          produced := st.produced ++ [result]
          modelInputs := st.modelInputs ++ [st.conversation] }
      if result.tool_calls.isEmpty then st'
      else
        let tool_messages := executeToolR jsonLoads agent result.tool_calls
        refactorLoop llm jsonLoads agent fuel
          { conversation := st'.conversation ++ tool_messages
            produced := st'.produced ++ tool_messages
            modelInputs := st'.modelInputs }

/-- The `ConversationResult` of `refactor/core/types.py`. -/
structure ConversationResult where
  messages : List RMessage
  context : List (String × String)

/-- Embeds `Orchestrator.run_conversation`, lines 50-89: copy the input
messages, insert the system message at index 0, run the turn loop, and
return everything but the system message together with the (never
mutated) context. -/
def run_conversation (llm : RModelFn) (jsonLoads : String → Option Json)
    (agent : RAgent) (messages : List RMessage) (context : List (String × String))
    (max_turns : Nat) : ConversationResult × RConvState :=
  let system_msg := agent.get_system_message context
  let st0 : RConvState := { conversation := system_msg :: messages }
  let stF := refactorLoop llm jsonLoads agent max_turns st0
  ({ messages := stF.conversation.drop 1, context := context }, stF)

/-! ## Main orchestrator (`src/schwarm/core/schwarm.py`)

The data model below (`Message`, `Agent` fields, the run-context
defaults) follows the spec where its source module is absent from the
tree; the loop itself is translated from `schwarm.py`. -/

/-- Modelled from the spec: `schwarm.models.message` is not in the
tree; §3 gives `Message` as role, content, optional tool calls (each
id, name, raw-argument string) and an optional `tool_call_id`. -/
structure ToolCall where
  id : String
  name : String
  arguments : String
deriving DecidableEq, Repr

structure Message where
  role : String
  content : String
  tool_calls : List ToolCall := []
  tool_call_id : Option String := none
deriving DecidableEq, Repr

/-- String-keyed context variables (spec §3: a string-keyed map of
opaque values); values are kept opaque as strings. -/
abbrev CtxVars := List (String × String)

/-- Python `dict.__setitem__`: overwrite an existing key in place,
append a fresh key. -/
def dictSet (m : CtxVars) (k v : String) : CtxVars :=
  if (List.lookup k m).isSome then
    m.map (fun kv => if kv.1 == k then (k, v) else kv)
  else m ++ [(k, v)]

/-- Python `dict.update`: fold `dictSet` over the patch, left to
right. -/
def dictUpdate (m patch : CtxVars) : CtxVars :=
  patch.foldl (fun acc kv => dictSet acc kv.1 kv.2) m

/-- Agent instructions: a static string or a producer from the context
variables (spec §3, `schwarm.models.types` is not in the tree). -/
inductive Instruction where
  | static (s : String)
  | producer (f : CtxVars → String)

/-- The `Agent.instructions` materialisation, `Schwarm._set_instructions`
lines 166-173. -/
def materialize : Instruction → CtxVars → String
  | .static s, _ => s
  | .producer f, cv => f cv

/-- A tool descriptor on an agent (`agent.functions`); only its
identity matters to the orchestrator loop. -/
structure AgentFunction where
  name : String
deriving DecidableEq, Repr

/-- Modelled from the spec: `schwarm.models.types.Agent` is not in the
tree; §3 gives a stable name, instructions (string or producer) and an
ordered tool list.  Agents are compared by name (§3: agents are
reference-equal by `name` within a run). -/
structure Agent where
  name : String
  instructions : Instruction := .static ""
  functions : List AgentFunction := []

/-- Modelled from the spec: `ProviderContextModel` is not in the tree;
§3 gives the run-context fields, with `turn` starting at 0 at run
start.  Provider bookkeeping (`available_providers`) is outside the
model. -/
structure ProviderContext where
  current_turn : Nat := 0
  max_turns : Nat := 10
  current_agent : Option Agent := none
  previous_agent : Option Agent := none
  message_history : List Message := []
  context_variables : CtxVars := []
  available_agents : List Agent := []
  available_tools : List AgentFunction := []
  instruction_str : String := ""
  current_message : Option Message := none

/-- The event kinds fired by `Schwarm` (`EventType`). -/
inductive EvType where
  | start | startTurn | instruct | messageCompletion
  | postMessageCompletion | toolExecution | postToolExecution | handoff
deriving DecidableEq, Repr

/-- What an event snapshot exposes about the run-context at trigger
time: the event kind and the current agent name. -/
structure EventRecord where
  ev : EvType
  agentName : Option String
deriving DecidableEq, Repr

/-- Run-level bookkeeping (proof instrumentation, not program state):
the event trace, the input of every model call, the turn counter
values after each increment, and the messages appended during the most
recent loop iteration. -/
structure RunBook where
  trace : List EventRecord := []
  modelCalls : List (List Message) := []
  turns : List Nat := []
  lastDelta : List Message := []

/-- The state of `Schwarm.run`: the provider context plus the local
variables of the loop (`agent`, `messages`, `context_variables`,
`max_turns`) and the bookkeeping. -/
structure RunState where
  ctx : ProviderContext
  agent : Agent
  messages : List Message
  contextVariables : CtxVars
  maxTurns : Nat
  book : RunBook := {}

/-- Embeds `Schwarm._trigger_event`: fire an event; the snapshot records the
context's current agent at trigger time. -/
def trigger (ev : EvType) (s : RunState) : RunState :=
  { s with book := { s.book with
      trace := s.book.trace ++ [⟨ev, s.ctx.current_agent.map Agent.name⟩] } }

/-- Membership of an agent in a list, by name (§3: agents are
reference-equal by name within a run). -/
def agentMem (a : Agent) (l : List Agent) : Bool :=
  l.any (fun b => b.name == a.name)

/-- The `for function in agent.functions` merge of
`Schwarm._setup_context` lines 155-157. -/
def mergeTools (old new : List AgentFunction) : List AgentFunction :=
  new.foldl (fun acc f => if acc.contains f then acc else acc ++ [f]) old

/-- Embeds `Schwarm._setup_context` lines 137-164: on turn 0 the context is
recreated and seeded with the agent and its tools; afterwards the
agent and its tools are merged in; then `max_turns`, `current_agent`,
`context_variables` and `message_history` are (re)assigned from the
loop locals and the `START` event fires. -/
def setupContext (s : RunState) : RunState :=
  let s :=
    if s.ctx.current_turn == 0 then
      { s with ctx := { ({} : ProviderContext) with
          current_turn := 0
          available_agents := [s.agent]
          available_tools := s.agent.functions } }
    else
      { s with ctx := { s.ctx with
          available_agents :=
            if agentMem s.agent s.ctx.available_agents then s.ctx.available_agents
            else s.ctx.available_agents ++ [s.agent]
          available_tools := mergeTools s.ctx.available_tools s.agent.functions } }
  let s := { s with ctx := { s.ctx with
      max_turns := s.maxTurns
      current_agent := some s.agent
      context_variables := s.contextVariables
      message_history := s.messages } }
  trigger .start s

/-- Embeds `Schwarm._set_instructions`: cache the materialised instruction
string on the context. -/
def setInstructions (s : RunState) : RunState :=
  { s with ctx := { s.ctx with
      instruction_str := materialize s.agent.instructions s.ctx.context_variables } }

/-- The abstract LLM provider (`provider.complete` of the out-of-scope
adapter): from the input messages it yields the assistant content and
tool calls. -/
abbrev ModelFn := List Message → String × List ToolCall

/-- Embeds `Schwarm._complete_agent_request` lines 216-240: set the
instructions, fire `INSTRUCT`, build the model input as the system
message followed by the stored history, fire `MESSAGE_COMPLETION`, and
call the provider.  Returns the updated state, the completion and the
input that was sent to the model. -/
def completeAgentRequest (model : ModelFn) (s : RunState) :
    RunState × Message × List Message :=
  let s := setInstructions s
  let s := trigger .instruct s
  let system_msg : Message := { role := "system", content := s.ctx.instruction_str }
  let input := system_msg :: s.ctx.message_history
  let s := trigger .messageCompletion s
  let resp := model input
  (s, { role := "assistant", content := resp.1, tool_calls := resp.2 }, input)

/-- Modelled from the spec: `schwarm.core.tools.ToolHandler` is not in
the tree; §4.4 has the invoker return the tool messages, the merged
context variables and the handoff target (or none). -/
structure HandoffResponse where
  messages : List Message
  context_variables : CtxVars
  agent : Option Agent

/-- The abstract tool handler
(`ToolHandler().handle_tool_calls(current_agent, tool_calls,
functions, context_variables)`). -/
abbrev ToolHandlerFn := String → List ToolCall → List AgentFunction → CtxVars → HandoffResponse

/-- Embeds `Schwarm._process_turn` lines 179-209: complete the request,
append the assistant message, fire `POST_MESSAGE_COMPLETION`; when
there are tool calls and tool execution is enabled, fire
`TOOL_EXECUTION`, run the handler, extend the history, merge the
context variables, fire `POST_TOOL_EXECUTION`, and perform the handoff
(swap agents, then fire `HANDOFF`) exactly when some tool result
designated an agent different from the current one. -/
def processTurn (model : ModelFn) (handler : ToolHandlerFn) (executeTools : Bool)
    (s₀ : RunState) : RunState :=
  let r := completeAgentRequest model s₀
  let s := r.1
  let completion := r.2.1
  let s := { s with
    ctx := { s.ctx with
      current_message := some completion
      message_history := s.ctx.message_history ++ [completion] }
    book := { s.book with modelCalls := s.book.modelCalls ++ [r.2.2] } }
  let s := trigger .postMessageCompletion s
  if completion.tool_calls.isEmpty || !executeTools then s
  else
    let s := trigger .toolExecution s
    let pr := handler s₀.agent.name completion.tool_calls s₀.agent.functions s₀.contextVariables
    let s := { s with ctx := { s.ctx with
        message_history := s.ctx.message_history ++ pr.messages
        context_variables := dictUpdate s.ctx.context_variables pr.context_variables } }
    let s := trigger .postToolExecution s
    match pr.agent with
    | some a =>
        if a.name ≠ s₀.agent.name then
          let s := { s with ctx := { s.ctx with
              current_agent := some a
              previous_agent := some s₀.agent } }
          trigger .handoff s
        else s
    | none => s

/-- One iteration of the `while True` loop of `Schwarm.run` lines
103-118: set up the context, fire `START_TURN`, process the turn, and
increment the turn counter.  The bookkeeping records the new turn
value and the messages this iteration appended. -/
def runIteration (model : ModelFn) (handler : ToolHandlerFn) (executeTools : Bool)
    (s : RunState) : RunState :=
  let entryMessages := s.messages
  let s := setupContext s
  let s := trigger .startTurn s
  let s := processTurn model handler executeTools s
  let s := { s with ctx := { s.ctx with current_turn := s.ctx.current_turn + 1 } }
  { s with book := { s.book with
      turns := s.book.turns ++ [s.ctx.current_turn]
      lastDelta := s.ctx.message_history.drop entryMessages.length } }

/-- Embeds `Schwarm._can_continue_conversation` lines 175-177. -/
def canContinue (s : RunState) : Bool :=
  s.ctx.current_turn < s.ctx.max_turns

/-- The `else` branch of the loop, lines 113-117: refresh the loop
locals from the context before the next iteration. -/
def updateLocals (s : RunState) : RunState :=
  { s with
    messages := s.ctx.message_history
    agent := s.ctx.current_agent.getD s.agent
    contextVariables := s.ctx.context_variables
    maxTurns := s.ctx.max_turns }

/-- The `while True` loop of `Schwarm.run`: run an iteration, stop
when the turn budget is exhausted, otherwise refresh the locals and
continue.  The loop body always runs at least once; the fuel
(`max_turns` at the call site) bounds the recursion and is never
exhausted early because the turn counter increases by one per
iteration. -/
def runLoop (model : ModelFn) (handler : ToolHandlerFn) (executeTools : Bool) :
    Nat → RunState → RunState
  | 0, s => runIteration model handler executeTools s
  | fuel + 1, s =>
      let s' := runIteration model handler executeTools s
      if canContinue s' then runLoop model handler executeTools fuel (updateLocals s')
      else s'

/-- The `Response` (`schwarm.models.types`), as built at lines 122-126:
the history past the local `messages` value, the final current agent,
and the final context variables. -/
structure Response where
  messages : List Message
  agent : Option Agent
  context_variables : CtxVars

/-- Embeds `Schwarm.run` lines 88-126: initialise the state, run the loop,
and build the `Response` from the final context and the final value of
the `messages` local. -/
def schwarmRun (model : ModelFn) (handler : ToolHandlerFn) (agent : Agent)
    (messages : List Message) (context_variables : CtxVars)
    (max_turns : Nat) (execute_tools : Bool) : RunState × Response :=
  let s0 : RunState :=
    { ctx := {}, agent := agent, messages := messages
      contextVariables := context_variables, maxTurns := max_turns }
  let sF := runLoop model handler execute_tools max_turns s0
  (sF, { messages := sF.ctx.message_history.drop sF.messages.length
         agent := sF.ctx.current_agent
         context_variables := sF.ctx.context_variables })

/-! ## Event dispatcher (`schwarm/events.py`) -/

/-- The `EventType` of `schwarm/events.py`. -/
inductive DEventType where
  | agentInitialized | agentDestroyed
  | beforeFunctionExecution | afterFunctionExecution | functionError
  | beforeProviderExecution | afterProviderExecution | providerError
  | contextVariableSet | contextVariableRemoved | contextCleared
deriving DecidableEq, Repr

/-- The `Event` of `schwarm/events.py`. -/
structure DEvent where
  type : DEventType
  data : Option (List (String × String)) := none
  source : Option String := none

/-- The environment a listener acts on.  A Python listener mutates
ambient state and may raise; it is embedded as a state transformer
that either yields the new state or an exception. -/
abbrev DState := List String

abbrev DListener := DEvent → DState → Except String DState

/-- The observable outcome of one listener invocation. -/
inductive Outcome where
  | ok
  | raised
deriving DecidableEq, Repr

/-- The `for listener in self._listeners[event.type]` loop of
`EventDispatcher.dispatch`, lines 101-107: invoke each listener in
registration order; an exception from a listener is swallowed
(`except Exception: pass`) and the loop moves on to the next listener.
The invocation trace (one `Outcome` per listener, in order) is proof
instrumentation. -/
def dispatchLoop (e : DEvent) : List DListener → DState → DState × List Outcome
  | [], st => (st, [])
  | l :: rest, st =>
      match l e st with
      | .ok st' =>
          let r := dispatchLoop e rest st'
          (r.1, .ok :: r.2)
      | .error _ =>
          let r := dispatchLoop e rest st
          (r.1, .raised :: r.2)

/-- The `EventDispatcher`: the `_listeners` dict, event type to listener
list. -/
structure EventDispatcher where
  listeners : List (DEventType × List DListener) := []

/-- Embeds `EventDispatcher.add_listener`, lines 70-79: create the list for a
new event type, then append. -/
def addListener (d : EventDispatcher) (t : DEventType) (l : DListener) : EventDispatcher :=
  if (d.listeners.lookup t).isSome then
    { listeners := d.listeners.map (fun kv => if kv.1 = t then (kv.1, kv.2 ++ [l]) else kv) }
  else
    { listeners := d.listeners ++ [(t, [l])] }

/-- Embeds `EventDispatcher.dispatch`, lines 95-107: if the event type has
registered listeners, run the dispatch loop over exactly that list;
otherwise do nothing. -/
def dispatch (d : EventDispatcher) (e : DEvent) (st : DState) : DState × List Outcome :=
  match d.listeners.lookup e.type with
  | some ls => dispatchLoop e ls st
  | none => (st, [])

/-! ## Tool registry (`src/schwarm/tools/registry.py`) -/

/-- The `ToolConfig` of `src/schwarm/tools/api.py`.  `timeout` and
`cache_ttl` are wall-clock quantities; only their presence matters
here. -/
structure ToolConfig where
  timeout : Option Nat := none
  retry_count : Nat := 0
  cache_ttl : Option Nat := none
deriving DecidableEq, Repr

/-- The `ToolMetadata` of `src/schwarm/tools/api.py`; parameter types and
the return type are kept as opaque strings. -/
structure ToolMetadata where
  name : String
  description : String
  parameters : List (String × String)
  required_params : List String
  return_type : String
  tags : List String := []
deriving DecidableEq, Repr

/-- A registrable tool: its `__name__`, `__doc__`, `__annotations__`
(including a possible `return` entry), `__defaults__` (default values,
opaque as strings) and `_tags`, plus the implementation.  Successive
invocations of the implementation are indexed by an attempt counter so
that retry behaviour is observable. -/
structure RegTool where
  name : String
  doc : Option String := none
  hints : List (String × String) := []
  defaults : List String := []
  tags : List String := []
  impl : Nat → Except String String

/-- Embeds `ToolRegistry._extract_metadata`, lines 49-83: description from
the docstring (with the fallback text), parameters from the
annotations minus `return`, required parameters those whose *name*
does not occur in the defaults tuple (mirroring the source's
membership test), return type from the `return` annotation. -/
def extract_metadata (t : RegTool) : ToolMetadata :=
  let doc := t.doc.getD "No description available"
  let params := t.hints.filter (fun kv => kv.1 ≠ "return")
  let required := (params.map (·.1)).filter (fun p => ¬ t.defaults.contains p)
  { name := t.name
    description := doc.trim
    parameters := params
    required_params := required
    return_type := (t.hints.lookup "return").getD "Any"
    tags := t.tags }

/-- The `_tools` / `_configs` / `_metadata` dicts of `ToolRegistry`
(the cache and the asyncio lock are outside the model). -/
structure ToolRegistry where
  tools : List (String × RegTool) := []
  configs : List (String × ToolConfig) := []
  metadata : List (String × ToolMetadata) := []

/-- Embeds `ToolRegistry.register`, lines 26-47: raise `ValueError` when the
name is taken (returning the registry unchanged together with the
error), otherwise add the tool, its config (or a default one) and its
extracted metadata.  The error is returned alongside the state so that
the claim that a failed registration leaves the maps untouched is
expressible. -/
def register (r : ToolRegistry) (tool : RegTool) (config : Option ToolConfig) :
    ToolRegistry × Option String :=
  let name := tool.name
  if (r.tools.lookup name).isSome then
    (r, some ("Tool already registered: " ++ name))
  else
    ({ tools := r.tools ++ [(name, tool)]
       configs := r.configs ++ [(name, config.getD {})]
       metadata := r.metadata ++ [(name, extract_metadata tool)] }, none)

/-- The `while retries >= 0` loop of
`ToolRegistry._execute_with_retry`, lines 144-181, in terms of the
attempt index: invoke the tool; return on success; on an exception,
stop with that exception when no retries remain, otherwise retry (the
backoff sleep is outside the model).  The second component counts the
invocations made. -/
def retryLoop (tool : Nat → Except String String) (attempt : Nat) :
    Nat → Except String String × Nat
  | 0 =>
      match tool attempt with
      | .ok v => (.ok v, attempt + 1)
      | .error e => (.error e, attempt + 1)
  | r + 1 =>
      match tool attempt with
      | .ok v => (.ok v, attempt + 1)
      | .error _ => retryLoop tool (attempt + 1) r

/-- Embeds `ToolRegistry._execute_with_retry`: start with `retries =
config.retry_count`. -/
def execute_with_retry (tool : Nat → Except String String) (config : ToolConfig) :
    Except String String × Nat :=
  retryLoop tool 0 config.retry_count

/-! ## Derived notions and sample inputs used by the theorems -/

/-- Adjacent event snapshots either agree on the current agent or the
later one is the `Handoff` event: the rendering of "`currentAgent`
changes only at a handoff boundary" over the event trace. -/
abbrev HandRel (r₁ r₂ : EventRecord) : Prop :=
  r₂.ev = .handoff ∨ r₁.agentName = r₂.agentName

/-- The event snapshots appended by one `_process_turn` call, as a
function of its entry state: `Instruct`, `MessageCompletion` and
`PostMessageCompletion` always fire; with tool calls and tool
execution enabled, `ToolExecution` and `PostToolExecution` follow; and
exactly when some tool result designated an agent with a different
name, a final `Handoff` snapshot carrying the *new* agent closes the
turn. -/
def ptTrace (model : ModelFn) (handler : ToolHandlerFn) (execT : Bool)
    (s₀ : RunState) : List EventRecord :=
  let cur := s₀.ctx.current_agent.map Agent.name
  [⟨.instruct, cur⟩, ⟨.messageCompletion, cur⟩, ⟨.postMessageCompletion, cur⟩] ++
    if (completeAgentRequest model s₀).2.1.tool_calls.isEmpty || !execT then []
    else
      [⟨.toolExecution, cur⟩, ⟨.postToolExecution, cur⟩] ++
        match (handler s₀.agent.name (completeAgentRequest model s₀).2.1.tool_calls
            s₀.agent.functions s₀.contextVariables).agent with
        | some a => if a.name ≠ s₀.agent.name then [⟨.handoff, some a.name⟩] else []
        | none => []

/-- A well-formed model input: a `system` head whose tail is free of
`system`-role messages. -/
def ModelCallOk (c : List Message) : Prop :=
  ∃ sys rest, c = sys :: rest ∧ sys.role = "system" ∧ ∀ m ∈ rest, m.role ≠ "system"

/-- The system message a loop iteration sends to the model, in terms
of the iteration's entry state: the instructions of the local `agent`,
materialised over the local context variables. -/
def sysMsgOf (s : RunState) : Message :=
  { role := "system", content := materialize s.agent.instructions s.contextVariables }

/-- A model that always answers `Hello` with no tool calls. -/
def noToolModel : ModelFn := fun _ => ("Hello", [])

/-- A tool handler that returns no messages, no variables and no
handoff target. -/
def nullHandler : ToolHandlerFn := fun _ _ _ _ =>
  { messages := [], context_variables := [], agent := none }

/-- The `echo` agent of scenario S1. -/
def echoAgent : Agent := { name := "echo", instructions := .static "repeat user" }

/-- The S1 user input. -/
def helloMsg : Message := { role := "user", content := "Hello" }

/-- A refactor-path model that always answers `Hello` with no tool
calls. -/
def rNoToolModel : RModelFn := fun _ => ("Hello", [])

/-- A refactor agent with no tools. -/
def rEchoAgent : RAgent := { name := "echo", instructions := .static "repeat user" }

/-- Two model-emitted tool calls that differ only in their call id. -/
def rawCallA : RawToolCall := { id := "call_A", name := "add", arguments := "x" }

def rawCallB : RawToolCall := { id := "call_B", name := "add", arguments := "x" }

/-- A decoder that fails on every input; it is trivially sound. -/
def noneLoads : String → Option Json := fun _ => none

/-- A listener that always raises. -/
def badListener : DListener := fun _ _ => .error "boom"

/-- A listener that always raises, with a different exception than
`badListener`. -/
def otherBadListener : DListener := fun _ _ => .error "crash"

/-- A listener that records its invocation in the state. -/
def goodListener : DListener := fun _ st => .ok (st ++ ["ran"])

def sampleEvent : DEvent := { type := .agentInitialized }

/-- A dispatcher whose first registered listener raises `boom`. -/
def badDispatcher : EventDispatcher :=
  { listeners := [(.agentInitialized, [badListener, goodListener])] }

/-- The same dispatcher except that the first listener raises
`crash`. -/
def otherBadDispatcher : EventDispatcher :=
  { listeners := [(.agentInitialized, [otherBadListener, goodListener])] }

/-- A sample registrable tool. -/
def sampleTool : RegTool :=
  { name := "echo", doc := some "Echo a value.", hints := [("value", "str")]
    impl := fun _ => .ok "ok" }

/-- A registry that already holds `sampleTool`. -/
def sampleReg : ToolRegistry :=
  { tools := [("echo", sampleTool)]
    configs := [("echo", {})]
    metadata := [("echo", extract_metadata sampleTool)] }

/-- A tool that fails on its first invocation and succeeds on the
second. -/
def flakyTool : Nat → Except String String :=
  fun k => if k == 1 then .ok "done" else .error "boom"

/-! ## Theorems

### C10: retry loop of `ToolRegistry._execute_with_retry` -/

theorem retryLoop_count_le (tool : Nat → Except String String) :
    ∀ (r a : Nat), (retryLoop tool a r).2 ≤ a + r + 1 := by
  intro r
  induction r with
  | zero =>
      intro a
      unfold retryLoop
      cases tool a <;> simp
  | succ n ih =>
      intro a
      unfold retryLoop
      cases h : tool a with
      | ok v => simp
      | error e =>
          simp only
          have := ih (a + 1)
          omega

theorem retryLoop_first_success (tool : Nat → Except String String) :
    ∀ (k r a : Nat) (v : String), k ≤ r → tool (a + k) = .ok v →
      (∀ j, j < k → ∃ e, tool (a + j) = .error e) →
      retryLoop tool a r = (.ok v, a + k + 1) := by
  intro k
  induction k with
  | zero =>
      intro r a v _ hok _
      simp only [Nat.add_zero] at hok
      cases r <;> (unfold retryLoop; rw [hok])
  | succ m ih =>
      intro r a v hk hok hfail
      obtain ⟨e0, he0⟩ := hfail 0 (Nat.succ_pos m)
      simp only [Nat.add_zero] at he0
      obtain ⟨n, rfl⟩ : ∃ n, r = n + 1 := ⟨r - 1, by omega⟩
      unfold retryLoop
      rw [he0]
      have hok' : tool (a + 1 + m) = .ok v := by
        have : a + 1 + m = a + (m + 1) := by omega
        rw [this]; exact hok
      have hfail' : ∀ j, j < m → ∃ e, tool (a + 1 + j) = .error e := by
        intro j hj
        have : a + 1 + j = a + (j + 1) := by omega
        rw [this]
        exact hfail (j + 1) (by omega)
      have := ih n (a + 1) v (by omega) hok' hfail'
      rw [this]
      simp [Prod.ext_iff]
      omega

theorem retryLoop_all_fail (tool : Nat → Except String String) :
    ∀ (r a : Nat), (∀ j, j ≤ r → ∃ e, tool (a + j) = .error e) →
      ∃ e, tool (a + r) = .error e ∧ retryLoop tool a r = (.error e, a + r + 1) := by
  intro r
  induction r with
  | zero =>
      intro a hfail
      obtain ⟨e, he⟩ := hfail 0 (Nat.le_refl 0)
      simp only [Nat.add_zero] at he
      exact ⟨e, by simpa using he, by unfold retryLoop; rw [he]⟩
  | succ n ih =>
      intro a hfail
      obtain ⟨e0, he0⟩ := hfail 0 (Nat.zero_le _)
      simp only [Nat.add_zero] at he0
      have hfail' : ∀ j, j ≤ n → ∃ e, tool (a + 1 + j) = .error e := by
        intro j hj
        have : a + 1 + j = a + (j + 1) := by omega
        rw [this]
        exact hfail (j + 1) (by omega)
      obtain ⟨e, hlast, hloop⟩ := ih (a + 1) hfail'
      refine ⟨e, ?_, ?_⟩
      · have : a + 1 + n = a + (n + 1) := by omega
        rw [this] at hlast
        exact hlast
      · unfold retryLoop
        rw [he0, hloop]
        simp [Prod.ext_iff]
        omega

/-- C10: with `retry_count = n`, `ToolRegistry._execute_with_retry`
invokes the tool at most `n + 1` times; the loop terminates (the
embedding is a total function), returns the first successful result,
and when every attempt raises it re-raises the exception of the last
attempt. -/
theorem tool_registry_retry_spec (tool : Nat → Except String String) (config : ToolConfig) :
    (execute_with_retry tool config).2 ≤ config.retry_count + 1 ∧
    (∀ k v, k ≤ config.retry_count → tool k = .ok v →
        (∀ j, j < k → ∃ e, tool j = .error e) →
        execute_with_retry tool config = (.ok v, k + 1)) ∧
    ((∀ j, j ≤ config.retry_count → ∃ e, tool j = .error e) →
        ∃ e, tool config.retry_count = .error e ∧
          execute_with_retry tool config = (.error e, config.retry_count + 1)) := by
  refine ⟨?_, ?_, ?_⟩
  · have := retryLoop_count_le tool config.retry_count 0
    simpa [execute_with_retry] using this
  · intro k v hk hok hfail
    have := retryLoop_first_success tool k config.retry_count 0 v hk (by simpa using hok)
      (by intro j hj; simpa using hfail j hj)
    simpa [execute_with_retry] using this
  · intro hfail
    have := retryLoop_all_fail tool config.retry_count 0
      (by intro j hj; simpa using hfail j hj)
    simpa [execute_with_retry] using this

/-- C10 witness: `flakyTool` with `retry_count = 2` fails once, then
succeeds on the second invocation; two invocations are made. -/
theorem tool_registry_retry_spec_witness :
    (1 : Nat) ≤ 2 ∧ flakyTool 1 = .ok "done" ∧
      execute_with_retry flakyTool { retry_count := 2 } = (.ok "done", 2) := by
  refine ⟨by decide, rfl, ?_⟩
  have h := (tool_registry_retry_spec flakyTool { retry_count := 2 }).2.1 1 "done"
    (by decide) rfl
    (by
      intro j hj
      refine ⟨"boom", ?_⟩
      interval_cases j
      · rfl)
  simpa using h

/-! ### C9: `ToolRegistry.register` -/

/-- C9: registering a name that is already present raises `ValueError`
and leaves all three maps unchanged; registering a fresh name adds
exactly one entry to each of the tool, config and metadata maps. -/
theorem tool_registry_register_spec (r : ToolRegistry) (t : RegTool) (cfg : Option ToolConfig) :
    ((r.tools.lookup t.name).isSome →
        register r t cfg = (r, some ("Tool already registered: " ++ t.name))) ∧
    (r.tools.lookup t.name = none →
        register r t cfg =
          ({ tools := r.tools ++ [(t.name, t)]
             configs := r.configs ++ [(t.name, cfg.getD {})]
             metadata := r.metadata ++ [(t.name, extract_metadata t)] }, none)) := by
  constructor
  · intro h
    simp [register, h]
  · intro h
    simp [register, h]

/-- C9 witness: registering `sampleTool` into an empty registry adds
one entry to each map; registering it again into `sampleReg` (which
already holds it) fails with `ValueError` and returns the registry
unchanged. -/
theorem tool_registry_register_spec_witness :
    register ({} : ToolRegistry) sampleTool none =
      ({ tools := [("echo", sampleTool)]
         configs := [("echo", ({} : ToolConfig))]
         metadata := [("echo", extract_metadata sampleTool)] }, none) ∧
    register sampleReg sampleTool none =
      (sampleReg, some "Tool already registered: echo") := by
  constructor
  · exact (tool_registry_register_spec {} sampleTool none).2 rfl
  · exact (tool_registry_register_spec sampleReg sampleTool none).1 rfl

/-! ### C7: `EventDispatcher.dispatch` -/

theorem dispatchLoop_length (e : DEvent) :
    ∀ (ls : List DListener) (st : DState), (dispatchLoop e ls st).2.length = ls.length := by
  intro ls
  induction ls with
  | nil => intro st; rfl
  | cons l rest ih =>
      intro st
      unfold dispatchLoop
      cases l e st with
      | ok st' => simpa using ih st'
      | error err => simpa using ih st

/-- C7 counterexample: the exception a listener raises is *not*
logged — `EventDispatcher.dispatch` discards it (`except Exception:
pass`).  Two dispatchers whose failing listener raises different
exceptions produce identical dispatch results (final state and
invocation trace), so nothing the dispatcher produces records the
error; the handler is skipped and the later listener still runs. -/
theorem dispatch_swallows_exceptions_unlogged :
    badListener sampleEvent [] = .error "boom" ∧
    otherBadListener sampleEvent [] = .error "crash" ∧
    ("boom" : String) ≠ "crash" ∧
    dispatch badDispatcher sampleEvent [] = dispatch otherBadDispatcher sampleEvent [] ∧
    dispatch badDispatcher sampleEvent [] = (["ran"], [.raised, .ok]) := by
  refine ⟨rfl, rfl, by decide, rfl, rfl⟩

/-- C7 (amended): a listener that raises is silently swallowed — the
exception is discarded, not logged — and skipped (the state it would
have written is discarded); every subsequent listener for the event
still runs from the unchanged state; dispatch completes without
propagating the exception (the loop equations below hold
unconditionally, and `dispatchLoop` is a total function); each
listener registered for the event type is invoked exactly once, so the
event is not dispatched a second time. -/
theorem dispatch_isolates_handler_failures (d : EventDispatcher) (e : DEvent)
    (st : DState) (l : DListener) (rest : List DListener) :
    (∀ ls, d.listeners.lookup e.type = some ls →
        (dispatch d e st).2.length = ls.length) ∧
    (∀ err, l e st = .error err →
        dispatchLoop e (l :: rest) st =
          ((dispatchLoop e rest st).1, .raised :: (dispatchLoop e rest st).2)) ∧
    (∀ st', l e st = .ok st' →
        dispatchLoop e (l :: rest) st =
          ((dispatchLoop e rest st').1, .ok :: (dispatchLoop e rest st').2)) := by
  refine ⟨?_, ?_, ?_⟩
  · intro ls hls
    simp [dispatch, hls, dispatchLoop_length]
  · intro err herr
    simp only [dispatchLoop, herr]
  · intro st' hok
    simp only [dispatchLoop, hok]

/-- C7 witness: dispatching to a raising listener followed by a
recording listener swallows the exception, still runs the second
listener, and invokes each exactly once. -/
theorem dispatch_isolates_handler_failures_witness :
    dispatchLoop sampleEvent [badListener, goodListener] [] = (["ran"], [.raised, .ok]) := by
  have h := (dispatch_isolates_handler_failures {} sampleEvent [] badListener
    [goodListener]).2.1 "boom" rfl
  rw [h]
  rfl

/-! ### C8: tool-argument decoding in `Orchestrator._execute_tool` -/

/-- C8: for a string argument payload the invoker decodes it with the
JSON decoder, and exactly when decoding fails the arguments passed to
the tool are the single-entry object mapping `input` to the raw
string.  The backward direction uses the decoder-soundness bound: no
JSON text can decode to an object that contains the whole text as a
member string. -/
theorem tool_arguments_json_decode_fallback (jsonLoads : String → Option Json)
    (hsound : DecoderSound jsonLoads) (raw : String) :
    (∀ v, jsonLoads raw = some v → decodeArguments jsonLoads (.rawStr raw) = v) ∧
    (jsonLoads raw = none ↔
      decodeArguments jsonLoads (.rawStr raw) = .obj [("input", .str raw)]) := by
  constructor
  · intro v hv
    simp [decodeArguments, hv]
  · constructor
    · intro h
      simp [decodeArguments, h]
    · intro h
      cases hv : jsonLoads raw with
      | none => rfl
      | some v =>
          exfalso
          simp [decodeArguments, hv] at h
          subst h
          have hb := hsound raw _ hv
          simp [Json.minLen, Json.strMinLen] at hb
          omega

/-- C8 witness: with a decoder that fails, the raw string `x` is
wrapped under the single key `input`. -/
theorem tool_arguments_json_decode_fallback_witness :
    noneLoads "x" = none ∧
      decodeArguments noneLoads (.rawStr "x") = .obj [("input", .str "x")] := by
  refine ⟨rfl, ?_⟩
  exact (tool_arguments_json_decode_fallback noneLoads
    (by intro s v h; exact absurd h (by simp [noneLoads])) "x").2.mp rfl

/-! ### C4: tool messages in the refactor orchestrator -/

theorem executeToolR_eq_map (jsonLoads : String → Option Json) (agent : RAgent) :
    ∀ calls : List RToolCall,
      executeToolR jsonLoads agent calls = calls.map (toolCallMessage jsonLoads agent) := by
  intro calls
  induction calls with
  | nil => rfl
  | cons tc rest ih => simp [executeToolR, ih]

theorem toolCallMessage_role (jsonLoads : String → Option Json) (agent : RAgent)
    (tc : RToolCall) : (toolCallMessage jsonLoads agent tc).role = "tool" := by
  cases h : agent.execute_tool tc.name (decodeArguments jsonLoads tc.arguments) <;>
    simp [toolCallMessage, h]

/-- C4 counterexample: two model-emitted tool calls that differ only
in their `tool_call_id` are mapped by `LLMProvider._extract_content`
to the same extracted call.  The id is discarded before tool
execution, and the refactor `Message` type has no `tool_call_id`
field, so the resulting histories are identical for distinct ids: no
tool message can carry "the same `tool_call_id` as that call". -/
theorem tool_messages_do_not_carry_call_ids :
    rawCallA.id ≠ rawCallB.id ∧
    extractToolCalls [rawCallA] = extractToolCalls [rawCallB] ∧
    executeToolR noneLoads rEchoAgent (extractToolCalls [rawCallA]) =
      executeToolR noneLoads rEchoAgent (extractToolCalls [rawCallB]) := by
  refine ⟨by decide, rfl, rfl⟩

/-- C4 (amended): every tool call in a batch produces exactly one
tool-role message, in declared order; a tool body that raises (or an
unknown tool name) is captured into an error tool message; the batch
is appended to the conversation directly after its assistant message,
before the next model call, and the loop continues.  The messages
carry no `tool_call_id`: the refactor `Message` has no such field. -/
theorem tool_calls_each_produce_tool_message (jsonLoads : String → Option Json)
    (llm : RModelFn) (agent : RAgent) (fuel : Nat) (st : RConvState)
    (calls : List RToolCall) :
    (executeToolR jsonLoads agent calls).length = calls.length ∧
    (∀ m ∈ executeToolR jsonLoads agent calls, m.role = "tool") ∧
    (∀ tc ∈ calls, ∀ e,
        agent.execute_tool tc.name (decodeArguments jsonLoads tc.arguments) = .error e →
        toolCallMessage jsonLoads agent tc =
          { content := "Error executing tool " ++ tc.name ++ ": " ++ e, role := "tool" }) ∧
    ((assistantOf (llm st.conversation)).tool_calls.isEmpty = false →
        refactorLoop llm jsonLoads agent (fuel + 1) st =
          refactorLoop llm jsonLoads agent fuel
            { conversation := st.conversation ++ assistantOf (llm st.conversation) ::
                executeToolR jsonLoads agent (assistantOf (llm st.conversation)).tool_calls
              produced := st.produced ++ assistantOf (llm st.conversation) ::
                executeToolR jsonLoads agent (assistantOf (llm st.conversation)).tool_calls
              modelInputs := st.modelInputs ++ [st.conversation] }) := by
  refine ⟨?_, ?_, ?_, ?_⟩
  · rw [executeToolR_eq_map]
    exact List.length_map _ _
  · intro m hm
    rw [executeToolR_eq_map] at hm
    obtain ⟨tc, _, rfl⟩ := List.mem_map.mp hm
    exact toolCallMessage_role jsonLoads agent tc
  · intro tc _ e he
    simp [toolCallMessage, he]
  · intro hne
    conv_lhs => rw [refactorLoop]
    simp [hne]

/-- C4 witness: a batch of two calls (one raising tool, one unknown
name) produces two tool-role error messages in order. -/
theorem tool_calls_each_produce_tool_message_witness :
    (executeToolR noneLoads rEchoAgent (extractToolCalls [rawCallA, rawCallB])).length = 2 ∧
    (∀ m ∈ executeToolR noneLoads rEchoAgent (extractToolCalls [rawCallA, rawCallB]),
        m.role = "tool") := by
  have h := tool_calls_each_produce_tool_message noneLoads rNoToolModel rEchoAgent 0
    { conversation := [] } (extractToolCalls [rawCallA, rawCallB])
  exact ⟨h.1, h.2.1⟩

/-! ### C1: termination on an assistant message without tool calls -/

/-- C1 counterexample: in `Schwarm.run` the absence of tool calls does
not exit the loop.  With a model that never emits tool calls and
`max_turns = 2`, the run performs two turns and appends two assistant
messages; there is no `noToolCalls` termination (and no
`terminationReason` field at all): the only exit is the turn budget. -/
theorem schwarm_run_no_tool_calls_loops_counterexample :
    (schwarmRun noToolModel nullHandler echoAgent [helloMsg] [] 2 true).1.book.turns
        = [1, 2] ∧
    ((schwarmRun noToolModel nullHandler echoAgent [helloMsg] [] 2 true).1.ctx.message_history.map
        Message.role) = ["user", "assistant", "assistant"] := by
  exact ⟨rfl, rfl⟩

/-- C1 (amended): the refactor orchestrator
(`Orchestrator.run_conversation`) exits its loop at the turn whose
assistant message carries no tool calls; in the no-tool scenario it
performs exactly one model call and appends exactly one assistant
message (the main `Schwarm.run` loop instead keeps iterating until the
turn budget, and neither implementation has a `terminationReason`
field). -/
theorem refactor_exits_on_no_tool_calls (llm : RModelFn)
    (jsonLoads : String → Option Json) (agent : RAgent) (messages : List RMessage)
    (context : List (String × String)) (max_turns : Nat) (h1 : 1 ≤ max_turns)
    (hno : extractToolCalls (llm (agent.get_system_message context :: messages)).2 = []) :
    (run_conversation llm jsonLoads agent messages context max_turns).2.produced
        = [assistantOf (llm (agent.get_system_message context :: messages))] ∧
    (run_conversation llm jsonLoads agent messages context max_turns).2.modelInputs
        = [agent.get_system_message context :: messages] ∧
    (run_conversation llm jsonLoads agent messages context max_turns).1.messages
        = messages ++ [assistantOf (llm (agent.get_system_message context :: messages))] := by
  obtain ⟨n, rfl⟩ : ∃ n, max_turns = n + 1 := ⟨max_turns - 1, by omega⟩
  have hempty : (assistantOf (llm (agent.get_system_message context :: messages))).tool_calls.isEmpty
      = true := by
    simp [assistantOf, hno]
  refine ⟨?_, ?_, ?_⟩ <;>
    simp [run_conversation, refactorLoop, hempty]

/-- C1 witness: the S1 scenario on the refactor orchestrator — one
model call, one appended assistant message. -/
theorem refactor_exits_on_no_tool_calls_witness :
    (1 : Nat) ≤ 10 ∧
    (run_conversation rNoToolModel noneLoads rEchoAgent
        [{ content := "Hello" }] [] 10).1.messages
      = [{ content := "Hello" },
         { content := "Hello", role := "assistant", tool_calls := [] }] := by
  refine ⟨by decide, ?_⟩
  have h := (refactor_exits_on_no_tool_calls rNoToolModel noneLoads rEchoAgent
    [{ content := "Hello" }] [] 10 (by decide) rfl).2.2
  simpa using h

/-! ### Frame lemmas for the `Schwarm.run` loop -/

@[simp] theorem trigger_ctx (ev : EvType) (s : RunState) : (trigger ev s).ctx = s.ctx := rfl

@[simp] theorem trigger_agent (ev : EvType) (s : RunState) :
    (trigger ev s).agent = s.agent := rfl

@[simp] theorem trigger_messages (ev : EvType) (s : RunState) :
    (trigger ev s).messages = s.messages := rfl

@[simp] theorem trigger_contextVariables (ev : EvType) (s : RunState) :
    (trigger ev s).contextVariables = s.contextVariables := rfl

@[simp] theorem trigger_maxTurns (ev : EvType) (s : RunState) :
    (trigger ev s).maxTurns = s.maxTurns := rfl

@[simp] theorem trigger_book_turns (ev : EvType) (s : RunState) :
    (trigger ev s).book.turns = s.book.turns := rfl

@[simp] theorem trigger_book_modelCalls (ev : EvType) (s : RunState) :
    (trigger ev s).book.modelCalls = s.book.modelCalls := rfl

@[simp] theorem trigger_book_lastDelta (ev : EvType) (s : RunState) :
    (trigger ev s).book.lastDelta = s.book.lastDelta := rfl

@[simp] theorem trigger_book_trace (ev : EvType) (s : RunState) :
    (trigger ev s).book.trace
      = s.book.trace ++ [⟨ev, s.ctx.current_agent.map Agent.name⟩] := rfl

@[simp] theorem setup_ctx_current_turn (s : RunState) :
    (setupContext s).ctx.current_turn = s.ctx.current_turn := by
  unfold setupContext
  split <;> simp_all [trigger]

@[simp] theorem setup_ctx_max_turns (s : RunState) :
    (setupContext s).ctx.max_turns = s.maxTurns := by
  unfold setupContext
  split <;> rfl

@[simp] theorem setup_ctx_current_agent (s : RunState) :
    (setupContext s).ctx.current_agent = some s.agent := by
  unfold setupContext
  split <;> rfl

@[simp] theorem setup_ctx_context_variables (s : RunState) :
    (setupContext s).ctx.context_variables = s.contextVariables := by
  unfold setupContext
  split <;> rfl

@[simp] theorem setup_ctx_message_history (s : RunState) :
    (setupContext s).ctx.message_history = s.messages := by
  unfold setupContext
  split <;> rfl

@[simp] theorem setup_agent (s : RunState) : (setupContext s).agent = s.agent := by
  unfold setupContext
  split <;> rfl

@[simp] theorem setup_messages (s : RunState) : (setupContext s).messages = s.messages := by
  unfold setupContext
  split <;> rfl

@[simp] theorem setup_contextVariables (s : RunState) :
    (setupContext s).contextVariables = s.contextVariables := by
  unfold setupContext
  split <;> rfl

@[simp] theorem setup_maxTurns (s : RunState) : (setupContext s).maxTurns = s.maxTurns := by
  unfold setupContext
  split <;> rfl

@[simp] theorem setup_book_turns (s : RunState) :
    (setupContext s).book.turns = s.book.turns := by
  unfold setupContext
  split <;> rfl

@[simp] theorem setup_book_modelCalls (s : RunState) :
    (setupContext s).book.modelCalls = s.book.modelCalls := by
  unfold setupContext
  split <;> rfl

@[simp] theorem setup_book_lastDelta (s : RunState) :
    (setupContext s).book.lastDelta = s.book.lastDelta := by
  unfold setupContext
  split <;> rfl

@[simp] theorem setup_book_trace (s : RunState) :
    (setupContext s).book.trace = s.book.trace ++ [⟨.start, some s.agent.name⟩] := by
  unfold setupContext
  split <;> rfl

@[simp] theorem car_input (model : ModelFn) (s : RunState) :
    (completeAgentRequest model s).2.2
      = { role := "system",
          content := materialize s.agent.instructions s.ctx.context_variables }
        :: s.ctx.message_history := rfl

@[simp] theorem car_completion (model : ModelFn) (s : RunState) :
    (completeAgentRequest model s).2.1
      = { role := "assistant"
          content := (model ((completeAgentRequest model s).2.2)).1
          tool_calls := (model ((completeAgentRequest model s).2.2)).2 } := rfl

@[simp] theorem car_ctx_current_turn (model : ModelFn) (s : RunState) :
    (completeAgentRequest model s).1.ctx.current_turn = s.ctx.current_turn := rfl

@[simp] theorem car_ctx_max_turns (model : ModelFn) (s : RunState) :
    (completeAgentRequest model s).1.ctx.max_turns = s.ctx.max_turns := rfl

@[simp] theorem car_ctx_current_agent (model : ModelFn) (s : RunState) :
    (completeAgentRequest model s).1.ctx.current_agent = s.ctx.current_agent := rfl

@[simp] theorem car_ctx_previous_agent (model : ModelFn) (s : RunState) :
    (completeAgentRequest model s).1.ctx.previous_agent = s.ctx.previous_agent := rfl

@[simp] theorem car_ctx_context_variables (model : ModelFn) (s : RunState) :
    (completeAgentRequest model s).1.ctx.context_variables = s.ctx.context_variables := rfl

@[simp] theorem car_ctx_message_history (model : ModelFn) (s : RunState) :
    (completeAgentRequest model s).1.ctx.message_history = s.ctx.message_history := rfl

@[simp] theorem car_agent (model : ModelFn) (s : RunState) :
    (completeAgentRequest model s).1.agent = s.agent := rfl

@[simp] theorem car_messages (model : ModelFn) (s : RunState) :
    (completeAgentRequest model s).1.messages = s.messages := rfl

@[simp] theorem car_contextVariables (model : ModelFn) (s : RunState) :
    (completeAgentRequest model s).1.contextVariables = s.contextVariables := rfl

@[simp] theorem car_maxTurns (model : ModelFn) (s : RunState) :
    (completeAgentRequest model s).1.maxTurns = s.maxTurns := rfl

@[simp] theorem car_book_turns (model : ModelFn) (s : RunState) :
    (completeAgentRequest model s).1.book.turns = s.book.turns := rfl

@[simp] theorem car_book_modelCalls (model : ModelFn) (s : RunState) :
    (completeAgentRequest model s).1.book.modelCalls = s.book.modelCalls := rfl

@[simp] theorem car_book_lastDelta (model : ModelFn) (s : RunState) :
    (completeAgentRequest model s).1.book.lastDelta = s.book.lastDelta := rfl

@[simp] theorem car_book_trace (model : ModelFn) (s : RunState) :
    (completeAgentRequest model s).1.book.trace
      = s.book.trace
        ++ [⟨.instruct, s.ctx.current_agent.map Agent.name⟩,
            ⟨.messageCompletion, s.ctx.current_agent.map Agent.name⟩] := by
  simp [completeAgentRequest, setInstructions, trigger]

theorem pt_ctx_current_turn (model : ModelFn) (handler : ToolHandlerFn) (execT : Bool)
    (s : RunState) :
    (processTurn model handler execT s).ctx.current_turn = s.ctx.current_turn := by
  unfold processTurn
  dsimp only
  repeat' split
  all_goals rfl

theorem pt_ctx_max_turns (model : ModelFn) (handler : ToolHandlerFn) (execT : Bool)
    (s : RunState) :
    (processTurn model handler execT s).ctx.max_turns = s.ctx.max_turns := by
  unfold processTurn
  dsimp only
  repeat' split
  all_goals rfl

theorem pt_agent (model : ModelFn) (handler : ToolHandlerFn) (execT : Bool)
    (s : RunState) :
    (processTurn model handler execT s).agent = s.agent := by
  unfold processTurn
  dsimp only
  repeat' split
  all_goals rfl

theorem pt_messages (model : ModelFn) (handler : ToolHandlerFn) (execT : Bool)
    (s : RunState) :
    (processTurn model handler execT s).messages = s.messages := by
  unfold processTurn
  dsimp only
  repeat' split
  all_goals rfl

theorem pt_contextVariables (model : ModelFn) (handler : ToolHandlerFn) (execT : Bool)
    (s : RunState) :
    (processTurn model handler execT s).contextVariables = s.contextVariables := by
  unfold processTurn
  dsimp only
  repeat' split
  all_goals rfl

theorem pt_maxTurns (model : ModelFn) (handler : ToolHandlerFn) (execT : Bool)
    (s : RunState) :
    (processTurn model handler execT s).maxTurns = s.maxTurns := by
  unfold processTurn
  dsimp only
  repeat' split
  all_goals rfl

theorem pt_book_turns (model : ModelFn) (handler : ToolHandlerFn) (execT : Bool)
    (s : RunState) :
    (processTurn model handler execT s).book.turns = s.book.turns := by
  unfold processTurn
  dsimp only
  repeat' split
  all_goals rfl

theorem pt_book_modelCalls (model : ModelFn) (handler : ToolHandlerFn) (execT : Bool)
    (s : RunState) :
    (processTurn model handler execT s).book.modelCalls
      = s.book.modelCalls
        ++ [{ role := "system",
              content := materialize s.agent.instructions s.ctx.context_variables }
            :: s.ctx.message_history] := by
  unfold processTurn
  dsimp only
  repeat' split
  all_goals rfl

theorem pt_current_agent_isSome (model : ModelFn) (handler : ToolHandlerFn) (execT : Bool)
    (s : RunState) (h : s.ctx.current_agent.isSome) :
    (processTurn model handler execT s).ctx.current_agent.isSome := by
  unfold processTurn
  dsimp only
  repeat' split
  all_goals simp_all

@[simp] theorem ul_ctx (s : RunState) : (updateLocals s).ctx = s.ctx := rfl

@[simp] theorem ul_book (s : RunState) : (updateLocals s).book = s.book := rfl

@[simp] theorem ul_messages (s : RunState) :
    (updateLocals s).messages = s.ctx.message_history := rfl

@[simp] theorem ul_agent (s : RunState) :
    (updateLocals s).agent = s.ctx.current_agent.getD s.agent := rfl

@[simp] theorem ul_contextVariables (s : RunState) :
    (updateLocals s).contextVariables = s.ctx.context_variables := rfl

@[simp] theorem ul_maxTurns (s : RunState) :
    (updateLocals s).maxTurns = s.ctx.max_turns := rfl

theorem ri_ctx_current_turn (model : ModelFn) (handler : ToolHandlerFn) (execT : Bool)
    (s : RunState) :
    (runIteration model handler execT s).ctx.current_turn = s.ctx.current_turn + 1 := by
  unfold runIteration
  dsimp only
  simp [pt_ctx_current_turn]

theorem ri_ctx_max_turns (model : ModelFn) (handler : ToolHandlerFn) (execT : Bool)
    (s : RunState) :
    (runIteration model handler execT s).ctx.max_turns = s.maxTurns := by
  unfold runIteration
  dsimp only
  simp [pt_ctx_max_turns]

theorem ri_agent (model : ModelFn) (handler : ToolHandlerFn) (execT : Bool)
    (s : RunState) :
    (runIteration model handler execT s).agent = s.agent := by
  unfold runIteration
  dsimp only
  simp [pt_agent]

theorem ri_messages (model : ModelFn) (handler : ToolHandlerFn) (execT : Bool)
    (s : RunState) :
    (runIteration model handler execT s).messages = s.messages := by
  unfold runIteration
  dsimp only
  simp [pt_messages]

theorem ri_contextVariables (model : ModelFn) (handler : ToolHandlerFn) (execT : Bool)
    (s : RunState) :
    (runIteration model handler execT s).contextVariables = s.contextVariables := by
  unfold runIteration
  dsimp only
  simp [pt_contextVariables]

theorem ri_maxTurns (model : ModelFn) (handler : ToolHandlerFn) (execT : Bool)
    (s : RunState) :
    (runIteration model handler execT s).maxTurns = s.maxTurns := by
  unfold runIteration
  dsimp only
  simp [pt_maxTurns]

theorem ri_turns (model : ModelFn) (handler : ToolHandlerFn) (execT : Bool)
    (s : RunState) :
    (runIteration model handler execT s).book.turns
      = s.book.turns ++ [s.ctx.current_turn + 1] := by
  unfold runIteration
  dsimp only
  simp [pt_book_turns, pt_ctx_current_turn]

theorem ri_modelCalls (model : ModelFn) (handler : ToolHandlerFn) (execT : Bool)
    (s : RunState) :
    (runIteration model handler execT s).book.modelCalls
      = s.book.modelCalls ++ [sysMsgOf s :: s.messages] := by
  unfold runIteration
  dsimp only
  simp [pt_book_modelCalls, sysMsgOf]

theorem ri_lastDelta (model : ModelFn) (handler : ToolHandlerFn) (execT : Bool)
    (s : RunState) :
    (runIteration model handler execT s).book.lastDelta
      = (runIteration model handler execT s).ctx.message_history.drop s.messages.length := by
  unfold runIteration
  dsimp only

theorem ri_current_agent_isSome (model : ModelFn) (handler : ToolHandlerFn) (execT : Bool)
    (s : RunState) :
    (runIteration model handler execT s).ctx.current_agent.isSome := by
  unfold runIteration
  dsimp only
  apply pt_current_agent_isSome
  simp

/-! ### C2: turn monotonicity and the turn budget -/

theorem runLoop_turns_invariant (model : ModelFn) (handler : ToolHandlerFn) (execT : Bool)
    (M : Nat) :
    ∀ (fuel : Nat) (s : RunState), s.maxTurns = M → s.ctx.current_turn < M →
      (0 :: s.book.turns).getLast? = some s.ctx.current_turn →
      List.Chain' (· < ·) (0 :: s.book.turns) →
      (∀ t ∈ s.book.turns, t ≤ M) →
      List.Chain' (· < ·) (0 :: (runLoop model handler execT fuel s).book.turns) ∧
      (∀ t ∈ (runLoop model handler execT fuel s).book.turns, t ≤ M) := by
  have step : ∀ s : RunState, s.maxTurns = M → s.ctx.current_turn < M →
      (0 :: s.book.turns).getLast? = some s.ctx.current_turn →
      List.Chain' (· < ·) (0 :: s.book.turns) →
      (∀ t ∈ s.book.turns, t ≤ M) →
      List.Chain' (· < ·)
          (0 :: (runIteration model handler execT s).book.turns) ∧
        (∀ t ∈ (runIteration model handler execT s).book.turns, t ≤ M) ∧
        (0 :: (runIteration model handler execT s).book.turns).getLast?
          = some (runIteration model handler execT s).ctx.current_turn := by
    intro s hM hlt hlast hchain hbound
    rw [ri_turns, ri_ctx_current_turn]
    refine ⟨?_, ?_, ?_⟩
    · have : (0 :: (s.book.turns ++ [s.ctx.current_turn + 1]))
          = (0 :: s.book.turns) ++ [s.ctx.current_turn + 1] := by simp
      rw [this]
      refine List.Chain'.append hchain (List.chain'_singleton _) ?_
      intro x hx y hy
      rw [hlast] at hx
      simp at hx hy
      omega
    · intro t ht
      rcases List.mem_append.mp ht with h | h
      · exact hbound t h
      · simp at h
        omega
    · have : (0 :: (s.book.turns ++ [s.ctx.current_turn + 1]))
          = (0 :: s.book.turns) ++ [s.ctx.current_turn + 1] := by simp
      rw [this, List.getLast?_append_cons]
      rfl
  intro fuel
  induction fuel with
  | zero =>
      intro s hM hlt hlast hchain hbound
      have h := step s hM hlt hlast hchain hbound
      exact ⟨h.1, h.2.1⟩
  | succ n ih =>
      intro s hM hlt hlast hchain hbound
      have h := step s hM hlt hlast hchain hbound
      unfold runLoop
      dsimp only
      by_cases hc : canContinue (runIteration model handler execT s)
      · rw [if_pos hc]
        have hcl : (runIteration model handler execT s).ctx.current_turn < M := by
          have := ri_ctx_max_turns model handler execT s
          simp [canContinue] at hc
          omega
        refine ih (updateLocals (runIteration model handler execT s)) ?_ ?_ ?_ ?_ ?_
        · rw [ul_maxTurns, ri_ctx_max_turns, hM]
        · rw [ul_ctx]
          exact hcl
        · rw [ul_book, ul_ctx]
          exact h.2.2
        · rw [ul_book]
          exact h.1
        · rw [ul_book]
          exact h.2.1
      · rw [if_neg hc]
        exact ⟨h.1, h.2.1⟩

/-- C2 counterexample: with `max_turns = 0` the loop body of
`Schwarm.run` still executes once (the `while True` body runs before
the budget check), so the run ends with `turn = 1 > maxTurns = 0`:
`turn ≤ maxTurns` does not hold at every reachable state. -/
theorem turn_bound_fails_at_zero_max_turns :
    (schwarmRun noToolModel nullHandler echoAgent [helloMsg] [] 0 true).1.book.turns = [1] ∧
    (schwarmRun noToolModel nullHandler echoAgent [helloMsg] [] 0 true).1.ctx.max_turns = 0 ∧
    ¬ (1 : Nat) ≤ (schwarmRun noToolModel nullHandler echoAgent [helloMsg] [] 0 true).1.ctx.max_turns := by
  refine ⟨rfl, rfl, by decide⟩

/-- C2 (amended): the turn counter of a run is strictly increasing
between loop iterations and never decremented (the chain below starts
at the initial value 0), and whenever `maxTurns ≥ 1` every value it
takes is at most `maxTurns`.  (For `maxTurns = 0` the loop body still
runs once and the final turn exceeds the budget.) -/
theorem turn_strictly_increasing_and_bounded (model : ModelFn) (handler : ToolHandlerFn)
    (agent : Agent) (msgs : List Message) (cvars : CtxVars) (M : Nat) (execT : Bool)
    (hM : 1 ≤ M) :
    List.Chain' (· < ·)
        (0 :: (schwarmRun model handler agent msgs cvars M execT).1.book.turns) ∧
      ∀ t ∈ (schwarmRun model handler agent msgs cvars M execT).1.book.turns, t ≤ M := by
  unfold schwarmRun
  dsimp only
  exact runLoop_turns_invariant model handler execT M M _ rfl (by dsimp only; omega) rfl
    (List.chain'_singleton 0) (by simp)

/-- C2 witness: the two-turn no-tool run takes turn values `1, 2`,
strictly increasing and bounded by `maxTurns = 2`. -/
theorem turn_strictly_increasing_and_bounded_witness :
    (1 : Nat) ≤ 2 ∧
    (List.Chain' (· < ·)
        (0 :: (schwarmRun noToolModel nullHandler echoAgent [helloMsg] [] 2 true).1.book.turns) ∧
      ∀ t ∈ (schwarmRun noToolModel nullHandler echoAgent [helloMsg] [] 2 true).1.book.turns,
        t ≤ 2) :=
  ⟨by decide,
   turn_strictly_increasing_and_bounded noToolModel nullHandler echoAgent [helloMsg] [] 2 true
     (by decide)⟩

/-! ### C5: the contents of `Response` -/

theorem runLoop_lastDelta (model : ModelFn) (handler : ToolHandlerFn) (execT : Bool) :
    ∀ (fuel : Nat) (s : RunState),
      (runLoop model handler execT fuel s).book.lastDelta
        = (runLoop model handler execT fuel s).ctx.message_history.drop
            (runLoop model handler execT fuel s).messages.length := by
  intro fuel
  induction fuel with
  | zero =>
      intro s
      unfold runLoop
      rw [ri_lastDelta, ri_messages]
  | succ n ih =>
      intro s
      unfold runLoop
      dsimp only
      by_cases hc : canContinue (runIteration model handler execT s)
      · rw [if_pos hc]
        exact ih _
      · rw [if_neg hc, ri_lastDelta, ri_messages]

/-- C5 counterexample: in a two-iteration run the `messages` local of
`Schwarm.run` has been refreshed to the full history before the final
iteration, so `Response.messages = history[len(messages):]` returns
only the messages of the final iteration — one assistant message —
while the suffix produced during the call has two. -/
theorem run_result_multi_turn_counterexample :
    (schwarmRun noToolModel nullHandler echoAgent [helloMsg] [] 2 true).2.messages.length = 1 ∧
    ((schwarmRun noToolModel nullHandler echoAgent [helloMsg] [] 2 true).1.ctx.message_history.drop
        [helloMsg].length).length = 2 := by
  exact ⟨rfl, rfl⟩

/-- C5 (amended): `Schwarm.run` returns the final `currentAgent` and
the final `contextVariables`, and as `messages` the suffix of the
final history past the prefix that existed at the start of the *last*
loop iteration — i.e. the messages appended during the final iteration
only.  This equals the whole produced suffix exactly for
single-iteration runs (`maxTurns ≤ 1`). -/
theorem run_result_final_iteration_messages (model : ModelFn) (handler : ToolHandlerFn)
    (agent : Agent) (msgs : List Message) (cvars : CtxVars) (M : Nat) (execT : Bool) :
    (schwarmRun model handler agent msgs cvars M execT).2.messages
        = (schwarmRun model handler agent msgs cvars M execT).1.book.lastDelta ∧
    (schwarmRun model handler agent msgs cvars M execT).2.agent
        = (schwarmRun model handler agent msgs cvars M execT).1.ctx.current_agent ∧
    (schwarmRun model handler agent msgs cvars M execT).2.context_variables
        = (schwarmRun model handler agent msgs cvars M execT).1.ctx.context_variables ∧
    (M ≤ 1 →
      (schwarmRun model handler agent msgs cvars M execT).2.messages
        = (schwarmRun model handler agent msgs cvars M execT).1.ctx.message_history.drop
            msgs.length) := by
  refine ⟨?_, rfl, rfl, ?_⟩
  · unfold schwarmRun
    dsimp only
    exact (runLoop_lastDelta model handler execT M _).symm
  · intro hM
    unfold schwarmRun
    dsimp only
    interval_cases M
    · unfold runLoop
      rw [ri_messages]
    · unfold runLoop
      dsimp only
      have hc : canContinue (runIteration model handler execT
          { ctx := {}, agent := agent, messages := msgs
            contextVariables := cvars, maxTurns := 1 }) = false := by
        simp [canContinue, ri_ctx_current_turn, ri_ctx_max_turns]
      rw [if_neg (by simp [hc]), ri_messages]

/-- C5 witness: for a single-iteration run the response messages are
exactly the suffix appended past the initial input. -/
theorem run_result_final_iteration_messages_witness :
    (1 : Nat) ≤ 1 ∧
    (schwarmRun noToolModel nullHandler echoAgent [helloMsg] [] 1 true).2.messages
      = (schwarmRun noToolModel nullHandler echoAgent [helloMsg] [] 1 true).1.ctx.message_history.drop
          [helloMsg].length :=
  ⟨by decide,
   (run_result_final_iteration_messages noToolModel nullHandler echoAgent [helloMsg] [] 1
     true).2.2.2 (by decide)⟩

/-! ### C6: the system message is model input only -/

theorem pt_history_roles (model : ModelFn) (handler : ToolHandlerFn) (execT : Bool)
    (s : RunState)
    (hhist : ∀ m ∈ s.ctx.message_history, m.role ≠ "system")
    (hhandler : ∀ nm tcs fns cv, ∀ m ∈ (handler nm tcs fns cv).messages, m.role ≠ "system") :
    ∀ m ∈ (processTurn model handler execT s).ctx.message_history, m.role ≠ "system" := by
  unfold processTurn
  dsimp only
  repeat' split
  all_goals intro m hm
  all_goals
    simp only [trigger_ctx, car_ctx_message_history, car_completion, List.mem_append,
      List.mem_singleton, or_assoc] at hm
  all_goals
    first
      | (rcases hm with hm | hm | hm
         · exact hhist m hm
         · subst hm; simp
         · exact hhandler _ _ _ _ m hm)
      | (rcases hm with hm | hm
         · exact hhist m hm
         · subst hm; simp)

theorem ri_history_roles (model : ModelFn) (handler : ToolHandlerFn) (execT : Bool)
    (s : RunState)
    (hmsgs : ∀ m ∈ s.messages, m.role ≠ "system")
    (hhandler : ∀ nm tcs fns cv, ∀ m ∈ (handler nm tcs fns cv).messages, m.role ≠ "system") :
    ∀ m ∈ (runIteration model handler execT s).ctx.message_history, m.role ≠ "system" := by
  have heq : (runIteration model handler execT s).ctx.message_history
      = (processTurn model handler execT (trigger .startTurn (setupContext s))).ctx.message_history := by
    unfold runIteration
    dsimp only
  rw [heq]
  apply pt_history_roles
  · intro m hm
    simp only [trigger_ctx, setup_ctx_message_history] at hm
    exact hmsgs m hm
  · exact hhandler

theorem runLoop_system_free (model : ModelFn) (handler : ToolHandlerFn) (execT : Bool)
    (hhandler : ∀ nm tcs fns cv, ∀ m ∈ (handler nm tcs fns cv).messages, m.role ≠ "system") :
    ∀ (fuel : Nat) (s : RunState),
      (∀ m ∈ s.messages, m.role ≠ "system") →
      (∀ c ∈ s.book.modelCalls, ModelCallOk c) →
      (∀ c ∈ (runLoop model handler execT fuel s).book.modelCalls, ModelCallOk c) ∧
      (∀ m ∈ (runLoop model handler execT fuel s).ctx.message_history, m.role ≠ "system") := by
  have step : ∀ s : RunState,
      (∀ m ∈ s.messages, m.role ≠ "system") →
      (∀ c ∈ s.book.modelCalls, ModelCallOk c) →
      (∀ c ∈ (runIteration model handler execT s).book.modelCalls, ModelCallOk c) ∧
      (∀ m ∈ (runIteration model handler execT s).ctx.message_history, m.role ≠ "system") := by
    intro s hmsgs hcalls
    constructor
    · rw [ri_modelCalls]
      intro c hc
      rcases List.mem_append.mp hc with h | h
      · exact hcalls c h
      · simp only [List.mem_singleton] at h
        subst h
        exact ⟨sysMsgOf s, s.messages, rfl, rfl, hmsgs⟩
    · exact ri_history_roles model handler execT s hmsgs hhandler
  intro fuel
  induction fuel with
  | zero =>
      intro s h1 h2
      unfold runLoop
      exact step s h1 h2
  | succ n ih =>
      intro s h1 h2
      unfold runLoop
      dsimp only
      by_cases hc : canContinue (runIteration model handler execT s)
      · rw [if_pos hc]
        refine ih _ ?_ ?_
        · rw [ul_messages]
          exact (step s h1 h2).2
        · rw [ul_book]
          exact (step s h1 h2).1
      · rw [if_neg hc]
        exact step s h1 h2

/-- C6: in each turn the materialised instructions are prepended as a
`system` message to the model input only — the input sent to the model
is exactly that system message followed by the stored history, and the
request leaves the history unchanged — and the system message is never
stored in `messageHistory`: provided the initial input messages and
the tool handler produce no `system`-role messages, every model call
of the run is a `system` head over a system-free tail, and every
message in the stored history has a non-system role. -/
theorem system_message_model_input_only (model : ModelFn) (handler : ToolHandlerFn)
    (agent : Agent) (msgs : List Message) (cvars : CtxVars) (M : Nat) (execT : Bool)
    (hmsgs : ∀ m ∈ msgs, m.role ≠ "system")
    (hhandler : ∀ nm tcs fns cv, ∀ m ∈ (handler nm tcs fns cv).messages, m.role ≠ "system") :
    (∀ s : RunState,
        (completeAgentRequest model s).2.2
          = { role := "system",
              content := materialize s.agent.instructions s.ctx.context_variables }
            :: s.ctx.message_history ∧
        (completeAgentRequest model s).1.ctx.message_history = s.ctx.message_history) ∧
    (∀ c ∈ (schwarmRun model handler agent msgs cvars M execT).1.book.modelCalls,
        ModelCallOk c) ∧
    (∀ m ∈ (schwarmRun model handler agent msgs cvars M execT).1.ctx.message_history,
        m.role ≠ "system") := by
  refine ⟨fun s => ⟨rfl, rfl⟩, ?_⟩
  unfold schwarmRun
  dsimp only
  exact runLoop_system_free model handler execT hhandler M _ hmsgs (by simp)

/-- C6 witness: the two-turn no-tool run — both model inputs start
with the system message and the stored history is system-free. -/
theorem system_message_model_input_only_witness :
    (∀ m ∈ [helloMsg], m.role ≠ "system") ∧
    ((∀ c ∈ (schwarmRun noToolModel nullHandler echoAgent [helloMsg] [] 2 true).1.book.modelCalls,
        ModelCallOk c) ∧
      (∀ m ∈ (schwarmRun noToolModel nullHandler echoAgent [helloMsg] [] 2 true).1.ctx.message_history,
        m.role ≠ "system")) :=
  ⟨by decide,
   (system_message_model_input_only noToolModel nullHandler echoAgent [helloMsg] [] 2 true
     (by decide) (by intro nm tcs fns cv m hm; exact absurd hm (by simp [nullHandler]))).2⟩

/-! ### C3: agent changes happen only at the handoff boundary -/

theorem pt_trace (model : ModelFn) (handler : ToolHandlerFn) (execT : Bool)
    (s₀ : RunState) :
    (processTurn model handler execT s₀).book.trace
      = s₀.book.trace ++ ptTrace model handler execT s₀ := by
  unfold processTurn ptTrace
  dsimp only
  repeat' split
  all_goals simp

theorem pt_current_agent (model : ModelFn) (handler : ToolHandlerFn) (execT : Bool)
    (s₀ : RunState) :
    (processTurn model handler execT s₀).ctx.current_agent
      = (if (completeAgentRequest model s₀).2.1.tool_calls.isEmpty || !execT then
          s₀.ctx.current_agent
        else
          match (handler s₀.agent.name (completeAgentRequest model s₀).2.1.tool_calls
              s₀.agent.functions s₀.contextVariables).agent with
          | some a => if a.name ≠ s₀.agent.name then some a else s₀.ctx.current_agent
          | none => s₀.ctx.current_agent) := by
  unfold processTurn
  dsimp only
  repeat' split
  all_goals simp

theorem pt_previous_agent (model : ModelFn) (handler : ToolHandlerFn) (execT : Bool)
    (s₀ : RunState) :
    (processTurn model handler execT s₀).ctx.previous_agent
      = (if (completeAgentRequest model s₀).2.1.tool_calls.isEmpty || !execT then
          s₀.ctx.previous_agent
        else
          match (handler s₀.agent.name (completeAgentRequest model s₀).2.1.tool_calls
              s₀.agent.functions s₀.contextVariables).agent with
          | some a => if a.name ≠ s₀.agent.name then some s₀.agent
                      else s₀.ctx.previous_agent
          | none => s₀.ctx.previous_agent) := by
  unfold processTurn
  dsimp only
  repeat' split
  all_goals simp

theorem ri_trace (model : ModelFn) (handler : ToolHandlerFn) (execT : Bool)
    (s : RunState) :
    (runIteration model handler execT s).book.trace
      = s.book.trace
        ++ (⟨.start, some s.agent.name⟩ :: ⟨.startTurn, some s.agent.name⟩ ::
            ptTrace model handler execT (trigger .startTurn (setupContext s))) := by
  have heq : (runIteration model handler execT s).book.trace
      = (processTurn model handler execT (trigger .startTurn (setupContext s))).book.trace := by
    unfold runIteration
    dsimp only
  rw [heq, pt_trace]
  simp

theorem ri_current_agent_eq (model : ModelFn) (handler : ToolHandlerFn) (execT : Bool)
    (s : RunState) :
    (runIteration model handler execT s).ctx.current_agent
      = (processTurn model handler execT (trigger .startTurn (setupContext s))).ctx.current_agent := by
  unfold runIteration
  dsimp only

theorem ri_trace_chain (model : ModelFn) (handler : ToolHandlerFn) (execT : Bool)
    (s : RunState)
    (h1 : List.Chain' HandRel s.book.trace)
    (h2 : ∀ r ∈ s.book.trace.getLast?, r.agentName = some s.agent.name) :
    List.Chain' HandRel (runIteration model handler execT s).book.trace ∧
    (∀ r ∈ (runIteration model handler execT s).book.trace.getLast?,
      r.agentName = (runIteration model handler execT s).ctx.current_agent.map Agent.name) := by
  rw [ri_trace, ri_current_agent_eq, pt_current_agent]
  unfold ptTrace
  dsimp only
  simp only [trigger_ctx, trigger_agent, trigger_contextVariables, setup_ctx_current_agent,
    setup_agent, setup_contextVariables, Option.map_some']
  repeat' split
  all_goals
    refine ⟨List.Chain'.append h1 (by simp [List.chain'_cons, HandRel]) ?_, ?_⟩
  all_goals
    try (intro x hx y hy
         simp only [List.head?_cons, Option.mem_def, Option.some.injEq] at hy
         subst hy
         exact Or.inr (h2 x hx))
  all_goals
    intro r hr
    rw [List.getLast?_append_cons] at hr
    simp at hr
    subst hr
    rfl

theorem runLoop_trace_chain (model : ModelFn) (handler : ToolHandlerFn) (execT : Bool) :
    ∀ (fuel : Nat) (s : RunState),
      List.Chain' HandRel s.book.trace →
      (∀ r ∈ s.book.trace.getLast?, r.agentName = some s.agent.name) →
      List.Chain' HandRel (runLoop model handler execT fuel s).book.trace := by
  intro fuel
  induction fuel with
  | zero =>
      intro s h1 h2
      unfold runLoop
      exact (ri_trace_chain model handler execT s h1 h2).1
  | succ n ih =>
      intro s h1 h2
      unfold runLoop
      dsimp only
      by_cases hc : canContinue (runIteration model handler execT s)
      · rw [if_pos hc]
        obtain ⟨b, hb⟩ := Option.isSome_iff_exists.mp
          (ri_current_agent_isSome model handler execT s)
        refine ih (updateLocals (runIteration model handler execT s)) ?_ ?_
        · rw [ul_book]
          exact (ri_trace_chain model handler execT s h1 h2).1
        · rw [ul_book, ul_agent, hb]
          intro r hr
          have := (ri_trace_chain model handler execT s h1 h2).2 r hr
          rw [hb] at this
          simpa using this
      · rw [if_neg hc]
        exact (ri_trace_chain model handler execT s h1 h2).1

/-- C3: `currentAgent` changes only at the handoff boundary at the end
of tool execution.  The per-turn equations say: `_process_turn` leaves
`currentAgent` and `previousAgent` untouched unless tool execution ran
and some tool result designated an agent whose name differs from the
current agent's, in which case `currentAgent` becomes the designated
agent, `previousAgent` becomes the old agent, and the turn's event
block ends with a `Handoff` snapshot that already carries the *new*
agent (the event fires after the swap); no `Handoff` snapshot appears
in any other branch of `ptTrace`.  The run-level chain says adjacent
event snapshots of a whole run agree on the current agent except
across a `Handoff` event. -/
theorem current_agent_changes_only_at_handoff (model : ModelFn) (handler : ToolHandlerFn)
    (agent : Agent) (msgs : List Message) (cvars : CtxVars) (M : Nat) (execT : Bool) :
    (∀ s₀ : RunState,
      (processTurn model handler execT s₀).ctx.current_agent
        = (if (completeAgentRequest model s₀).2.1.tool_calls.isEmpty || !execT then
            s₀.ctx.current_agent
          else
            match (handler s₀.agent.name (completeAgentRequest model s₀).2.1.tool_calls
                s₀.agent.functions s₀.contextVariables).agent with
            | some a => if a.name ≠ s₀.agent.name then some a else s₀.ctx.current_agent
            | none => s₀.ctx.current_agent) ∧
      (processTurn model handler execT s₀).ctx.previous_agent
        = (if (completeAgentRequest model s₀).2.1.tool_calls.isEmpty || !execT then
            s₀.ctx.previous_agent
          else
            match (handler s₀.agent.name (completeAgentRequest model s₀).2.1.tool_calls
                s₀.agent.functions s₀.contextVariables).agent with
            | some a => if a.name ≠ s₀.agent.name then some s₀.agent
                        else s₀.ctx.previous_agent
            | none => s₀.ctx.previous_agent) ∧
      (processTurn model handler execT s₀).book.trace
        = s₀.book.trace ++ ptTrace model handler execT s₀) ∧
    List.Chain' HandRel
      (schwarmRun model handler agent msgs cvars M execT).1.book.trace := by
  constructor
  · intro s₀
    exact ⟨pt_current_agent model handler execT s₀,
      pt_previous_agent model handler execT s₀,
      pt_trace model handler execT s₀⟩
  · unfold schwarmRun
    dsimp only
    exact runLoop_trace_chain model handler execT M _ (by simp) (by simp)

end SchwarmVerify
